import Mathlib

/-!
Shallow embedding of the parallel-text batching pipeline in
`src/text_loader.py`: the sample filtering/truncation done by
`TextLoader._preprocess_data`, the index-batch schedule generators
`bucket_schedule` and `warmup_schedule`, and the array builder of
`TextBatchGenerator` (`_make_array`, `_add_sos`, `_spaces`, `_mask`,
`_make_len_vec`, `_make_batch`).

Conventions of the embedding:
* Python strings become `List Char`; a sample is a source/target pair.
* NumPy 2-d arrays become `List (List Int)` (row-major); `np.zeros`
  initialisation and row copies are reproduced literally.
* Generators become lists: one epoch of a schedule is a list of index
  batches.  The draws of the global random source
  (`np.random.shuffle`, `np.random.permutation`) are passed in as
  explicit arguments and are constrained, in the theorems, to be
  permutations of what the code shuffles.
* The helpers imported from `frostings.loader` are not part of the
  repository sources; they are modelled from the spec and marked as such.
-/

/-- A sample: a (source sentence, target sentence) pair, as in
`TextLoader.samples`. -/
abbrev Sample := List Char × List Char

/-- The ASCII whitespace characters stripped by Python's `str.strip()`
(space, tab, newline, carriage return, vertical tab, form feed). -/
def isPyWhitespace (c : Char) : Bool :=
  c = ' ' || c = '\t' || c = '\n' || c = '\r' ||
    c = Char.ofNat 11 || c = Char.ofNat 12

/-- Python `str.strip()`: drop whitespace from both ends. -/
def pyStrip (s : List Char) : List Char :=
  ((s.dropWhile isPyWhitespace).reverse.dropWhile isPyWhitespace).reverse

/-- The `len(x) <= max_length-1` test from `_filter_samples`.
`none` models the `float('inf')` bound the code actually passes, under
which the comparison is always true. -/
def lenLeMaxMinusOne (n : Nat) (maxLength : Option Nat) : Bool :=
  match maxLength with
  | none => true
  | some m => n ≤ m - 1

/-- `_filter_samples` from `text_loader.py`: keep pairs whose source has
`1 < len <= max_length-1`, then pairs whose target does, then
deduplicate via `list(set(samples))`.  Python's set iteration order is
arbitrary; we use `List.dedup` as one concrete dedup order. -/
def filter_samples (samples : List Sample) (maxLength : Option Nat) :
    List Sample :=
  let s1 := samples.filter fun p =>
    decide (1 < p.1.length) && lenLeMaxMinusOne p.1.length maxLength
  let s2 := s1.filter fun p =>
    decide (1 < p.2.length) && lenLeMaxMinusOne p.2.length maxLength
  s2.dedup

/-- `_truncate_samples` from `text_loader.py`: truncate both sides of
every pair to at most `limit` characters. -/
def truncate_samples (samples : List Sample) (limit : Nat) : List Sample :=
  samples.map fun p => (p.1.take limit, p.2.take limit)

/-- `_make_len_vec` from `text_loader.py`:
`[min(len(seq)+offset, max_len) for seq in sequences]`. -/
def make_len_vec {α : Type} (sequences : List (List α)) (offset : Nat)
    (max_len : Nat) : List Nat :=
  sequences.map fun seq => min (seq.length + offset) max_len

/-- `TextLoader._preprocess_data`: strip surrounding whitespace, filter
with an infinite upper bound, then truncate both sides to `seq_len-1`. -/
def preprocess_data (samples : List Sample) (seq_len : Nat) : List Sample :=
  let stripped := samples.map fun p => (pyStrip p.1, pyStrip p.2)
  truncate_samples (filter_samples stripped none) (seq_len - 1)

/-- `TextLoader._load_data`.  Each input file is modelled as its list of
lines (the result of `f.read().split("\n")`).  The path lists are
combined with `zip`, so trailing unpaired path entries contribute
nothing; the concatenated line streams are combined with `zip`, so
trailing unpaired lines are dropped. -/
def load_data (filesX filesT : List (List (List Char))) : List Sample :=
  let pairs := filesX.zip filesT
  let data_X := (pairs.map Prod.fst).flatten
  let data_t := (pairs.map Prod.snd).flatten
  data_X.zip data_t

/-- The composite sort key computed per sample inside `bucket_schedule`:
`(len(x)//fuzzyness) << 14 + len(t)//fuzzyness` (the shift is
parenthesised in the source, so `+` applies after the shift). -/
def lenKey (fuzzyness : Nat) (s : Sample) : Nat :=
  ((s.1.length / fuzzyness) <<< 14) + s.2.length / fuzzyness

/-- The `sample_indices` array built by `bucket_schedule`: one
`(index, key)` row per sample. -/
def sample_indices (samples : List Sample) (fuzzyness : Nat) :
    List (Nat × Nat) :=
  samples.enum.map fun p => (p.1, lenKey fuzzyness p.2)

/-- `sample_indices[argsort(sample_indices[:,1], kind='mergesort')]`:
stable sort of the rows by the key column.  NumPy's `mergesort` kind is
exactly "a stable sort"; a stable sort by a fixed key has a unique
result (ties keep their original order), so we model it with the
structural stable `insertionSort`, which the kernel can evaluate. -/
def sortByKey (l : List (Nat × Nat)) : List (Nat × Nat) :=
  l.insertionSort fun a b => a.2 ≤ b.2

/-- Modelled from the spec: `frostings.loader.get_number_of_batches` is
not under `src/`.  The spec states the number of batches is
`ceil(num_samples / batch_size)`; the code iterates over the batch
numbers (and permutes them with `np.random.permutation`), so we model
the value as the list `[0, ..., ceil-1]` of batch numbers. -/
def get_number_of_batches (batch_size num_samples : Nat) : List Nat :=
  List.range ((num_samples + batch_size - 1) / batch_size)

/-- Modelled from the spec: `frostings.loader.get_start_end_indices` is
not under `src/`.  The spec states slice boundaries follow an
even-partition rule over `[0, num_samples)` for the given batch size:
batch `b` covers `[b*batch_size, min((b+1)*batch_size, num_samples))`,
so every batch is full except possibly the last. -/
def get_start_end_indices (batch batch_size num_samples : Nat) : Nat × Nat :=
  (batch * batch_size, min ((batch + 1) * batch_size) num_samples)

/-- The `for batch in batch_numbers:` loop body of `bucket_schedule`:
yield, for each batch number in `bn`, the index column of the slice
`sample_indices[start:end]`. -/
def epoch_batches (arr : List (Nat × Nat)) (bn : List Nat)
    (batch_size num_samples : Nat) : List (List Nat) :=
  bn.map fun b =>
    let se := get_start_end_indices b batch_size num_samples
    ((arr.drop se.1).take (se.2 - se.1)).map Prod.fst

/-- One epoch of `bucket_schedule` (the body of its `while True:` loop;
with `repeat=False` the loop runs exactly once).  The draws of the
global random source are explicit arguments: `shuffled` is the result
of `np.random.shuffle(sample_indices)` and `order` the result of
`np.random.permutation(batch_numbers)`; both are consulted only when
`shuffle` is true, and the theorems constrain them to be permutations
of the shuffled data. -/
def bucket_schedule_once (samples : List Sample) (batch_size : Nat)
    (shuffle : Bool) (fuzzyness : Nat) (sort : Bool)
    (shuffled : List (Nat × Nat)) (order : List Nat) : List (List Nat) :=
  let si0 := sample_indices samples fuzzyness
  let si := if sort then sortByKey si0 else si0
  let num_samples := si.length
  let arr := if shuffle then sortByKey shuffled else si
  let bn := if shuffle then order
            else get_number_of_batches batch_size num_samples
  epoch_batches arr bn batch_size num_samples

/-- `warmup_schedule` from `text_loader.py`.  The warmup phase drives
`bucket_schedule` (the default `warmup_function`) with the fixed kwargs
`shuffle=False, repeat=False, fuzzyness=1, sort=True`; the
`enumerate`/`break` loop yields exactly the first `warmup_iterations`
of its batches (fewer if it exhausts first), i.e. `List.take`.  The
regular phase then yields every batch of the regular generator, whose
output is the parameter `regular`. -/
def warmup_schedule (samples : List Sample) (batch_size : Nat)
    (warmup_iterations : Nat) (regular : List (List Nat)) :
    List (List Nat) :=
  (bucket_schedule_once samples batch_size false 1 true [] []).take
      warmup_iterations
    ++ regular

/-- `TextBatchGenerator._spaces`: with EOS enabled a space is appended,
then the positions `idx-1` of every space plus the final position
`len-1` are collected.  Python yields `-1` when a space sits at index
0, hence `Int` entries. -/
def spacesOf (add_eos_character : Bool) (sentence0 : List Char) : List Int :=
  let sentence := if add_eos_character then sentence0 ++ [' '] else sentence0
  (sentence.enum.filterMap fun p =>
      if p.2 = ' ' then some ((p.1 : Int) - 1) else none)
    ++ [(sentence.length : Int) - 1]

/-- `TextBatchGenerator._mask`: a run of 1s as long as the sentence,
plus one extra 1 when the EOS character is enabled. -/
def maskOf (add_eos_character : Bool) (sentence : List Char) : List Int :=
  let m := List.replicate sentence.length (1 : Int)
  if add_eos_character then m ++ [1] else m

/-- `TextBatchGenerator._make_array`.  `max_len = 0` models Python's
falsy test `not max_len`, which fires both for `None` and for `0` (the
latter happens for `x_spaces` when `seq_len < 4`).  The row for sample
`i` is the zero row of `np.zeros([latest_batch_size, max_len])` with
`processed_seq[:max_len]` copied over its prefix.  Python raises
`ValueError` on `max([])` when the dynamic branch runs on an empty
batch, so the theorems about the dynamic branch assume a nonempty
batch; all in-repo call sites pass exactly `latest_batch_size`
sequences. -/
def make_array (latest_batch_size : Nat) (use_dynamic_array_sizes : Bool)
    (sequences : List (List Char)) (function : List Char → List Int)
    (max_len : Nat) : List (List Int) :=
  let ml := if use_dynamic_array_sizes || max_len == 0
    then (sequences.map List.length).foldl max 0
    else max_len
  (List.range latest_batch_size).map fun i =>
    match sequences.get? i with
    | some seq =>
      let processed := function seq
      processed.take ml ++ List.replicate (ml - processed.length) (0 : Int)
    | none => List.replicate ml (0 : Int)

/-- `TextBatchGenerator._add_sos`: prepend a start-of-sequence column
and drop the last column.  In `_make_batch` the input always has
`latest_batch_size` rows, matching the
`np.ones([latest_batch_size, 1]) * sos_id` column, so the
`np.concatenate` is modelled row by row. -/
def add_sos (sos_id : Int) (array : List (List Int)) : List (List Int) :=
  array.map fun row => sos_id :: row.dropLast

/-- The configuration a `TextBatchGenerator` instance carries into
`_make_batch`.  `encode` and `sos_id` stand for the external `Alphabet`
collaborator; `add_eos_character` is set to `True` in `__init__`. -/
structure GeneratorConfig where
  seq_len : Nat
  add_feature_dim : Bool
  use_dynamic_array_sizes : Bool
  add_eos_character : Bool
  sos_id : Int
  encode : List Char → List Int

/-- The batch dict produced by `TextBatchGenerator._make_batch`. -/
structure TextBatch where
  x_encoded : List (List Int)
  t_encoded : List (List Int)
  t_encoded_go : List (List Int)
  x_spaces : List (List Int)
  t_mask : List (List Int)
  x_len : List Nat
  t_len : List Nat
  x_spaces_len : List Nat
deriving DecidableEq

/-- `TextBatchGenerator._make_batch` on the samples of the current
batch.  `latest_batch_size` is the number of samples in the current
call (spec-modelled bookkeeping of frostings' `BatchGenerator`, which
is not under `src/`).  The file targets Python 3
(`open(..., encoding="utf-8")`, true division in `_preprocess_data`),
where `dict` has no `iteritems` method: when `add_feature_dim` is true
the final loop `batch.iteritems()` raises `AttributeError` before any
feature dimension is added, which we model as an `Except.error`. -/
def make_batch (cfg : GeneratorConfig) (samples : List Sample) :
    Except String TextBatch :=
  let latest_batch_size := samples.length
  let x := samples.map Prod.fst
  let t := samples.map Prod.snd
  let x_encoded := make_array latest_batch_size cfg.use_dynamic_array_sizes
    x cfg.encode cfg.seq_len
  let t_encoded := make_array latest_batch_size cfg.use_dynamic_array_sizes
    t cfg.encode cfg.seq_len
  let t_encoded_go := add_sos cfg.sos_id t_encoded
  let x_spaces := make_array latest_batch_size cfg.use_dynamic_array_sizes
    x (spacesOf cfg.add_eos_character) (cfg.seq_len / 4)
  let t_mask := make_array latest_batch_size cfg.use_dynamic_array_sizes
    t (maskOf cfg.add_eos_character) cfg.seq_len
  let x_len := make_len_vec x (if cfg.add_eos_character then 1 else 0) 100000
  let t_len := make_len_vec t (if cfg.add_eos_character then 1 else 0) 100000
  let spaces_x := x.map (spacesOf cfg.add_eos_character)
  let x_spaces_len := make_len_vec spaces_x 0 (cfg.seq_len / 4)
  if cfg.add_feature_dim then
    Except.error "AttributeError: dict object has no attribute iteritems"
  else
    Except.ok
      { x_encoded := x_encoded
        t_encoded := t_encoded
        t_encoded_go := t_encoded_go
        x_spaces := x_spaces
        t_mask := t_mask
        x_len := x_len
        t_len := t_len
        x_spaces_len := x_spaces_len }

/-! ## Theorems -/

/-- C7: the length-index sort key computed by `bucket_schedule` equals
`(len(source)//fuzzyness) << 14 + (len(target)//fuzzyness)` (the shift
is by 14 bits, i.e. multiplication by 2^14); consequently the source
length is the primary bucketing axis — a strictly smaller source bucket
gives a strictly smaller key whenever the target part stays below 2^14
— and the target length is the tiebreaker when the source buckets are
equal. -/
theorem C7_length_key (fuzzyness : Nat) (hf : 1 ≤ fuzzyness) (s s' : Sample) :
    lenKey fuzzyness s
      = (s.1.length / fuzzyness) * 2 ^ 14 + s.2.length / fuzzyness
    ∧ (s.1.length / fuzzyness < s'.1.length / fuzzyness →
        s.2.length / fuzzyness < 2 ^ 14 →
        lenKey fuzzyness s < lenKey fuzzyness s')
    ∧ (s.1.length / fuzzyness = s'.1.length / fuzzyness →
        (lenKey fuzzyness s < lenKey fuzzyness s' ↔
          s.2.length / fuzzyness < s'.2.length / fuzzyness)) := by
  have h14 : (2 : Nat) ^ 14 = 16384 := by norm_num
  have hkey : ∀ u : Sample, lenKey fuzzyness u
      = (u.1.length / fuzzyness) * 2 ^ 14 + u.2.length / fuzzyness := fun u => by
    simp [lenKey, Nat.shiftLeft_eq]
  refine ⟨hkey s, ?_, ?_⟩
  · intro h1 h2
    rw [hkey s, hkey s', h14]
    rw [h14] at h2
    calc s.1.length / fuzzyness * 16384 + s.2.length / fuzzyness
        < s.1.length / fuzzyness * 16384 + 16384 := Nat.add_lt_add_left h2 _
      _ = (s.1.length / fuzzyness + 1) * 16384 := by ring
      _ ≤ s'.1.length / fuzzyness * 16384 :=
          Nat.mul_le_mul_right 16384 (Nat.succ_le_of_lt h1)
      _ ≤ s'.1.length / fuzzyness * 16384 + s'.2.length / fuzzyness :=
          Nat.le_add_right _ _
  · intro h1
    rw [hkey s, hkey s', h14, h1]
    exact add_lt_add_iff_left _

/-- Witness for C7 at a concrete input. -/
theorem C7_length_key_witness :
    1 ≤ 2
    ∧ (lenKey 2 (['a','b','c'], ['x','y']) = (3 / 2) * 2 ^ 14 + 2 / 2
      ∧ (3 / 2 < 5 / 2 → 2 / 2 < 2 ^ 14 →
          lenKey 2 (['a','b','c'], ['x','y'])
            < lenKey 2 (['a','b','c','d','e'], ['x','y','z']))
      ∧ (3 / 2 = 5 / 2 →
          (lenKey 2 (['a','b','c'], ['x','y'])
              < lenKey 2 (['a','b','c','d','e'], ['x','y','z'])
            ↔ 2 / 2 < 3 / 2))) :=
  ⟨by decide, C7_length_key 2 (by decide) (['a','b','c'], ['x','y'])
    (['a','b','c','d','e'], ['x','y','z'])⟩

/-- C4: for every batch built by `_make_batch`, the shifted target
`t_encoded_go = _add_sos(t_encoded)` satisfies, row by row against
`t_encoded = _make_array(t, encode, seq_len)`: column 0 holds `sos_id`
and the remaining columns are the row of `t_encoded` without its last
column. -/
theorem C4_shift_correct (latest_batch_size : Nat)
    (use_dynamic_array_sizes : Bool) (t : List (List Char))
    (encode : List Char → List Int) (seq_len : Nat) (sos_id : Int) :
    List.Forall₂ (fun g r => g.head? = some sos_id ∧ g.drop 1 = r.dropLast)
      (add_sos sos_id
        (make_array latest_batch_size use_dynamic_array_sizes t encode
          seq_len))
      (make_array latest_batch_size use_dynamic_array_sizes t encode
        seq_len) := by
  simp only [add_sos]
  rw [List.forall₂_map_left_iff, List.forall₂_same]
  intro row _
  exact ⟨rfl, rfl⟩

/-- C8: the claim describes the intended behaviour, but under Python 3
(the dialect this file targets) `batch.iteritems()` raises
`AttributeError`, so `_make_batch` fails whenever `add_feature_dim` is
set instead of returning arrays with a trailing singleton axis. -/
theorem C8_feature_dim_attribute_error (cfg : GeneratorConfig)
    (samples : List Sample) (h : cfg.add_feature_dim = true) :
    make_batch cfg samples
      = Except.error
          "AttributeError: dict object has no attribute iteritems" := by
  simp only [make_batch, h, if_true]

/-- Witness for C8 at a concrete input. -/
theorem C8_feature_dim_attribute_error_witness :
    (GeneratorConfig.mk 5 true false true 0
        (fun s => s.map fun c => (c.toNat : Int))).add_feature_dim = true
    ∧ make_batch
        (GeneratorConfig.mk 5 true false true 0
          (fun s => s.map fun c => (c.toNat : Int)))
        [(['a','b'], ['c','d'])]
      = Except.error
          "AttributeError: dict object has no attribute iteritems" :=
  ⟨rfl, C8_feature_dim_attribute_error _ [(['a','b'], ['c','d'])] rfl⟩

/-- C1 fails as stated: `_filter_samples` deduplicates BEFORE
`_truncate_samples` runs, so truncation to `seq_len-1` characters can
make two retained samples exactly equal again.  With `seq_len = 4`, the
distinct pairs ("abc","xy") and ("abcd","xy") both survive filtering
and both truncate to ("abc","xy"). -/
theorem C1_counterexample :
    ¬ (preprocess_data [(['a','b','c'], ['x','y']),
        (['a','b','c','d'], ['x','y'])] 4).Nodup := by
  decide

/-- C1 (amended): after `_preprocess_data` with `seq_len >= 3`, every
retained sample satisfies `1 < len <= seq_len-1` on both sides, and the
samples are pairwise distinct at the point of deduplication (after
filtering, before truncation); truncation may subsequently make
retained pairs exactly equal. -/
theorem C1_preprocess_invariant (samples : List Sample) (seq_len : Nat)
    (h : 3 ≤ seq_len) :
    (∀ p ∈ preprocess_data samples seq_len,
        1 < p.1.length ∧ p.1.length ≤ seq_len - 1
        ∧ 1 < p.2.length ∧ p.2.length ≤ seq_len - 1)
    ∧ (filter_samples (samples.map fun p => (pyStrip p.1, pyStrip p.2))
        none).Nodup := by
  constructor
  · intro p hp
    simp only [preprocess_data, truncate_samples, List.mem_map] at hp
    obtain ⟨q, hq, rfl⟩ := hp
    have hq2 : 1 < q.1.length ∧ 1 < q.2.length := by
      simp only [filter_samples, List.mem_dedup, List.mem_filter,
        lenLeMaxMinusOne, Bool.and_true, decide_eq_true_eq] at hq
      exact ⟨hq.1.2, hq.2⟩
    simp only [List.length_take]
    omega
  · exact List.nodup_dedup _

/-- Witness for C1 (amended) at a concrete input. -/
theorem C1_preprocess_invariant_witness :
    3 ≤ 4
    ∧ ((∀ p ∈ preprocess_data [(['a','b','c'], ['x','y'])] 4,
          1 < p.1.length ∧ p.1.length ≤ 4 - 1
          ∧ 1 < p.2.length ∧ p.2.length ≤ 4 - 1)
      ∧ (filter_samples
          (([(['a','b','c'], ['x','y'])] : List Sample).map fun p =>
            (pyStrip p.1, pyStrip p.2)) none).Nodup) :=
  ⟨by decide, C1_preprocess_invariant [(['a','b','c'], ['x','y'])] 4
    (by decide)⟩

/-- C9: `_load_data` is total: it raises no error when the concatenated
source and target streams (or the two path lists) have different
lengths.  The sample list has exactly `min(len(data_X), len(data_t))`
entries, sample `i` pairs line `i` of the concatenated source stream
with line `i` of the concatenated target stream, and all unpaired
trailing lines are dropped. -/
theorem C9_load_data_truncation (filesX filesT : List (List (List Char))) :
    (load_data filesX filesT).length
      = min ((filesX.zip filesT).map Prod.fst).flatten.length
          ((filesX.zip filesT).map Prod.snd).flatten.length
    ∧ ∀ i, i < ((filesX.zip filesT).map Prod.fst).flatten.length →
        i < ((filesX.zip filesT).map Prod.snd).flatten.length →
        (load_data filesX filesT)[i]?
          = some (((filesX.zip filesT).map Prod.fst).flatten[i]?.getD [],
              ((filesX.zip filesT).map Prod.snd).flatten[i]?.getD []) := by
  constructor
  · simp [load_data, List.length_zip]
  · intro i h1 h2
    simp only [load_data]
    rw [List.getElem?_zip_eq_some]
    rw [List.getElem?_eq_getElem h1, List.getElem?_eq_getElem h2]
    exact ⟨by simp, by simp⟩

/-- Witness for C9 at a concrete input: two source files against one
target file; the second source file and the extra target lines drop
out silently, and line 1 is still paired position-wise. -/
theorem C9_load_data_truncation_witness :
    1 < (([([['a','b'], ['c','d']], [['x'], ['y'], ['z']])].map
        Prod.fst).flatten).length
    ∧ 1 < (([([['a','b'], ['c','d']], [['x'], ['y'], ['z']])].map
        Prod.snd).flatten).length
    ∧ (load_data [[['a','b'], ['c','d']], [['e','f']]]
          [[['x'], ['y'], ['z']]])[1]?
        = some ((([([['a','b'], ['c','d']], [['x'], ['y'], ['z']])].map
              Prod.fst).flatten)[1]?.getD [],
            (([([['a','b'], ['c','d']], [['x'], ['y'], ['z']])].map
              Prod.snd).flatten)[1]?.getD []) :=
  ⟨by decide, by decide,
    (C9_load_data_truncation [[['a','b'], ['c','d']], [['e','f']]]
        [[['x'], ['y'], ['z']]]).2 1 (by decide) (by decide)⟩

/-- Every element of a `Nat` list is bounded by `foldl max a` over it. -/
theorem foldl_max_bounds (l : List Nat) :
    ∀ a, (a ≤ l.foldl max a) ∧ ∀ x ∈ l, x ≤ l.foldl max a := by
  induction l with
  | nil => intro a; exact ⟨Nat.le_refl _, by intro x hx; cases hx⟩
  | cons b t ih =>
    intro a
    refine ⟨?_, ?_⟩
    · exact Nat.le_trans (Nat.le_max_left a b) (ih (max a b)).1
    · intro x hx
      rcases List.mem_cons.1 hx with rfl | hx
      · exact Nat.le_trans (Nat.le_max_right a x) (ih (max a x)).1
      · exact (ih (max a b)).2 x hx

/-- `foldl max a` over a list is the initial value or one of the
elements. -/
theorem foldl_max_mem_cons (l : List Nat) :
    ∀ a, l.foldl max a ∈ a :: l := by
  induction l with
  | nil => intro a; exact List.mem_singleton.2 rfl
  | cons b t ih =>
    intro a
    have h := ih (max a b)
    rcases List.mem_cons.1 h with h0 | h1
    · rw [List.foldl_cons, h0]
      rcases max_choice a b with h2 | h2 <;> rw [h2]
      · exact List.mem_cons_self _ _
      · exact List.mem_cons_of_mem _ (List.mem_cons_self _ _)
    · exact List.mem_cons_of_mem _ (List.mem_cons_of_mem _ h1)

/-- `foldl max 0` over a nonempty `Nat` list is one of its elements. -/
theorem foldl_max_mem (l : List Nat) (h : l ≠ []) : l.foldl max 0 ∈ l := by
  rcases List.mem_cons.1 (foldl_max_mem_cons l 0) with h0 | h1
  · cases l with
    | nil => exact absurd rfl h
    | cons a t =>
      have ha : a ≤ (a :: t).foldl max 0 :=
        (foldl_max_bounds (a :: t) 0).2 a (List.mem_cons_self _ _)
      rw [h0] at ha
      have : a = 0 := Nat.le_zero.1 ha
      rw [h0, ← this]
      exact List.mem_cons_self _ _
  · exact h1

/-- Every row produced by `_make_array` has exactly the chosen number
of columns: the dynamic/falsy maximum of the RAW sequence lengths, or
`max_len`. -/
theorem make_array_row_length (bsz : Nat) (dyn : Bool)
    (seqs : List (List Char)) (f : List Char → List Int) (ml0 : Nat) :
    ∀ row ∈ make_array bsz dyn seqs f ml0,
      row.length = if dyn || ml0 == 0
        then (seqs.map List.length).foldl max 0 else ml0 := by
  intro row hrow
  simp only [make_array, List.mem_map] at hrow
  obtain ⟨i, _, hrow⟩ := hrow
  cases h : seqs.get? i with
  | none =>
    rw [h] at hrow
    rw [← hrow, List.length_replicate]
  | some seq =>
    rw [h] at hrow
    rw [← hrow]
    simp only [List.length_append, List.length_take, List.length_replicate]
    omega

/-- C6 fails as stated: under `use_dynamic_array_sizes` the code sets
`max_len = max(len(seq) for seq in sequences)` — the longest RAW input
sequence — not the longest post-processing sequence.  With the in-repo
field function `_mask` (EOS enabled), the processed sequence of "ab"
has length 3, yet the produced row has length 2, so the second axis is
not sized to the longest post-processing sequence. -/
theorem C6_counterexample :
    ¬ (∀ row ∈ make_array 1 true [['a','b']] (maskOf true) 10,
        row.length = (maskOf true ['a','b']).length) := by
  decide

/-- C6 (amended): when `use_dynamic_array_sizes` is true (and the batch
is nonempty), every array produced by `_make_array` has its second axis
sized to the length of the longest RAW (pre-processing) sequence
present in the batch; sequences whose post-processing length exceeds it
are right-truncated on copy. -/
theorem C6_dynamic_rows (bsz : Nat) (seqs : List (List Char))
    (f : List Char → List Int) (max_len : Nat) (hne : seqs ≠ []) :
    ∀ row ∈ make_array bsz true seqs f max_len,
      (∀ s ∈ seqs, s.length ≤ row.length)
      ∧ ∃ s ∈ seqs, s.length = row.length := by
  intro row hrow
  have hlen := make_array_row_length bsz true seqs f max_len row hrow
  rw [Bool.true_or, if_pos rfl] at hlen
  constructor
  · intro s hs
    rw [hlen]
    exact (foldl_max_bounds (seqs.map List.length) 0).2 s.length
      (List.mem_map_of_mem List.length hs)
  · have hmem : (seqs.map List.length).foldl max 0 ∈ seqs.map List.length :=
      foldl_max_mem _ (by simpa using hne)
    obtain ⟨s, hs, hseq⟩ := List.mem_map.1 hmem
    exact ⟨s, hs, by rw [hlen, hseq]⟩

/-- Witness for C6 (amended) at a concrete input. -/
theorem C6_dynamic_rows_witness :
    ([['a','b'], ['c','d','e']] : List (List Char)) ≠ []
    ∧ ∀ row ∈ make_array 2 true [['a','b'], ['c','d','e']] (maskOf true) 10,
        (∀ s ∈ ([['a','b'], ['c','d','e']] : List (List Char)),
          s.length ≤ row.length)
        ∧ ∃ s ∈ ([['a','b'], ['c','d','e']] : List (List Char)),
            s.length = row.length :=
  ⟨by decide, C6_dynamic_rows 2 [['a','b'], ['c','d','e']] (maskOf true) 10
    (by decide)⟩

/-- C10: when `max_len` is `0` (Python `None` or `0`, e.g. the
`x_spaces` field with `seq_len < 4`, since `seq_len//4 == 0`), the
falsy test `not max_len` fires and the second axis is sized to the
longest RAW input sequence of the batch, even with
`use_dynamic_array_sizes = False`. -/
theorem C10_falsy_max_len_rows (bsz : Nat) (seqs : List (List Char))
    (f : List Char → List Int) (hne : seqs ≠ []) :
    ∀ row ∈ make_array bsz false seqs f 0,
      (∀ s ∈ seqs, s.length ≤ row.length)
      ∧ ∃ s ∈ seqs, s.length = row.length := by
  intro row hrow
  have hlen := make_array_row_length bsz false seqs f 0 row hrow
  rw [Bool.false_or] at hlen
  norm_num at hlen
  constructor
  · intro s hs
    rw [hlen]
    exact (foldl_max_bounds (seqs.map List.length) 0).2 s.length
      (List.mem_map_of_mem List.length hs)
  · have hmem : (seqs.map List.length).foldl max 0 ∈ seqs.map List.length :=
      foldl_max_mem _ (by simpa using hne)
    obtain ⟨s, hs, hseq⟩ := List.mem_map.1 hmem
    exact ⟨s, hs, by rw [hlen, hseq]⟩

/-- Witness for C10 at a concrete input: the `x_spaces` call with
`seq_len = 3`, whose `max_len` is `3 // 4 = 0`. -/
theorem C10_falsy_max_len_rows_witness :
    ([['a',' ','b']] : List (List Char)) ≠ []
    ∧ ∀ row ∈ make_array 1 false [['a',' ','b']] (spacesOf true) (3 / 4),
        (∀ s ∈ ([['a',' ','b']] : List (List Char)),
          s.length ≤ row.length)
        ∧ ∃ s ∈ ([['a',' ','b']] : List (List Char)),
            s.length = row.length :=
  ⟨by decide, C10_falsy_max_len_rows 1 [['a',' ','b']] (spacesOf true)
    (by decide)⟩

/-- `sample_indices` has one row per sample. -/
theorem sample_indices_length (samples : List Sample) (fuzzyness : Nat) :
    (sample_indices samples fuzzyness).length = samples.length := by
  simp [sample_indices]

/-- The index column of `sample_indices` is `0, 1, ..., n-1`. -/
theorem sample_indices_map_fst (samples : List Sample) (fuzzyness : Nat) :
    (sample_indices samples fuzzyness).map Prod.fst
      = List.range samples.length := by
  rw [sample_indices, List.map_map]
  have h : (Prod.fst ∘ fun p : Nat × Sample => (p.1, lenKey fuzzyness p.2))
      = Prod.fst := rfl
  rw [h, List.enum_eq_enumFrom, List.enumFrom_map_fst, List.range_eq_range']

/-- The stable key sort is a permutation of its input. -/
theorem sortByKey_perm (l : List (Nat × Nat)) : (sortByKey l).Perm l :=
  List.perm_insertionSort _ l

/-- The slice `[start:end]` taken by one batch equals a plain
`batch_size`-wide chunk: the `end` cap at `num_samples` only removes
elements `take` would drop anyway. -/
theorem slice_take_eq (arr : List (Nat × Nat)) (b bs : Nat) :
    (arr.drop (b * bs)).take (min ((b + 1) * bs) arr.length - b * bs)
      = (arr.drop (b * bs)).take bs := by
  rw [Nat.succ_mul]
  have hd : (arr.drop (b * bs)).length = arr.length - b * bs :=
    List.length_drop _ _
  rcases Nat.le_total (b * bs + bs) arr.length with h2 | h2
  · rw [Nat.min_eq_left h2]
    congr 1
    omega
  · rw [Nat.min_eq_right h2]
    rw [List.take_of_length_le (by omega), List.take_of_length_le (by omega)]

/-- Concatenating the `ceil(len/bs)` successive `bs`-wide chunks of a
list gives back the list. -/
theorem chunks_flatten {α : Type} (bs : Nat) (hbs : 1 ≤ bs) :
    ∀ n (arr : List α), arr.length ≤ n →
    ((List.range ((arr.length + bs - 1) / bs)).map fun b =>
        (arr.drop (b * bs)).take bs).flatten = arr := by
  intro n
  induction n with
  | zero =>
    intro arr h
    have h0 : arr = [] := List.eq_nil_of_length_eq_zero (Nat.le_zero.1 h)
    subst h0
    simp
  | succ n ih =>
    intro arr h
    cases arr with
    | nil => simp
    | cons a t =>
      have hlen : (a :: t).length = t.length + 1 := rfl
      have hdrop : ((a :: t).drop bs).length = (a :: t).length - bs :=
        List.length_drop _ _
      have hnb : ((a :: t).length + bs - 1) / bs
          = (((a :: t).drop bs).length + bs - 1) / bs + 1 := by
        rw [hdrop]
        have h3 : (a :: t).length + bs - 1 = ((a :: t).length - 1) + bs := by
          omega
        rw [h3, Nat.add_div_right _ (by omega)]
        rcases Nat.le_total (a :: t).length bs with hc | hc
        · have h1 : (a :: t).length - bs = 0 := by omega
          rw [h1]
          have h4 : (0 + bs - 1) / bs = 0 := Nat.div_eq_of_lt (by omega)
          have h5 : ((a :: t).length - 1) / bs = 0 :=
            Nat.div_eq_of_lt (by omega)
          rw [h4, h5]
        · have h4 : (a :: t).length - bs + bs - 1 = (a :: t).length - 1 := by
            omega
          rw [h4]
      rw [hnb, List.range_succ_eq_map, List.map_cons, List.flatten_cons]
      have hhead : ((a :: t).drop (0 * bs)).take bs = (a :: t).take bs := by
        rw [Nat.zero_mul, List.drop_zero]
      rw [hhead, List.map_map]
      have htail : (List.range ((((a :: t).drop bs).length + bs - 1) / bs)).map
            ((fun b => ((a :: t).drop (b * bs)).take bs) ∘ Nat.succ)
          = (List.range ((((a :: t).drop bs).length + bs - 1) / bs)).map
            (fun b => (((a :: t).drop bs).drop (b * bs)).take bs) := by
        refine List.map_congr_left fun b _ => ?_
        have hcomp : ((a :: t).drop bs).drop (b * bs)
            = (a :: t).drop (Nat.succ b * bs) := by
          rw [List.drop_drop, Nat.succ_mul, Nat.add_comm]
        rw [Function.comp_apply, hcomp]
      rw [htail, ih ((a :: t).drop bs) (by rw [hdrop]; omega)]
      exact List.take_append_drop bs (a :: t)

/-- Flattening the batch slices visited in any permuted order of the
batch numbers is a permutation of the index array itself. -/
theorem epoch_flatten_perm (arr : List (Nat × Nat)) (order : List Nat)
    (bs n : Nat) (hbs : 1 ≤ bs) (hlen : arr.length = n)
    (hord : order.Perm (get_number_of_batches bs n)) :
    (epoch_batches arr order bs n).flatten.Perm (arr.map Prod.fst) := by
  subst hlen
  rw [epoch_batches]
  have hmap := (hord.map fun b =>
    let se := get_start_end_indices b bs arr.length
    ((arr.drop se.1).take (se.2 - se.1)).map Prod.fst)
  refine hmap.flatten.trans ?_
  have hcong : (get_number_of_batches bs arr.length).map (fun b =>
        let se := get_start_end_indices b bs arr.length
        ((arr.drop se.1).take (se.2 - se.1)).map Prod.fst)
      = (get_number_of_batches bs arr.length).map (fun b =>
        ((arr.drop (b * bs)).take bs).map Prod.fst) := by
    refine List.map_congr_left fun b _ => ?_
    simp only [get_start_end_indices]
    rw [slice_take_eq]
  rw [hcong, get_number_of_batches]
  have hfu : (fun b => ((arr.drop (b * bs)).take bs).map Prod.fst)
      = (List.map Prod.fst ∘ fun b => (arr.drop (b * bs)).take bs) := rfl
  rw [hfu, ← List.map_map, ← List.map_flatten,
    chunks_flatten bs hbs arr.length arr (Nat.le_refl _)]

/-- C2: for a loader with at least one sample and `batch_size >= 1`,
one `repeat=False` pass of `bucket_schedule` yields exactly
`ceil(num_samples/batch_size)` batches, and the flattened sequence of
yielded index batches is a permutation of `{0, ..., num_samples-1}` —
every sample index occurs exactly once, whatever the shuffle draws
are. -/
theorem C2_coverage (samples : List Sample) (batch_size : Nat)
    (shuffle : Bool) (fuzzyness : Nat) (sort : Bool)
    (shuffled : List (Nat × Nat)) (order : List Nat)
    (hn : 1 ≤ samples.length) (hbs : 1 ≤ batch_size)
    (hsh : shuffle = true → shuffled.Perm
      (if sort then sortByKey (sample_indices samples fuzzyness)
       else sample_indices samples fuzzyness))
    (hord : shuffle = true → order.Perm
      (get_number_of_batches batch_size samples.length)) :
    (bucket_schedule_once samples batch_size shuffle fuzzyness sort shuffled
        order).length
      = (get_number_of_batches batch_size samples.length).length
    ∧ (bucket_schedule_once samples batch_size shuffle fuzzyness sort
        shuffled order).flatten.Perm (List.range samples.length) := by
  have hsilen : (if sort then sortByKey (sample_indices samples fuzzyness)
      else sample_indices samples fuzzyness).length = samples.length := by
    cases sort
    · rw [if_neg Bool.false_ne_true, sample_indices_length]
    · rw [if_pos rfl, sortByKey, List.length_insertionSort,
        sample_indices_length]
  have hsifst : ((if sort then sortByKey (sample_indices samples fuzzyness)
      else sample_indices samples fuzzyness).map Prod.fst).Perm
      (List.range samples.length) := by
    cases sort
    · rw [if_neg Bool.false_ne_true, sample_indices_map_fst]
    · rw [if_pos rfl]
      refine ((sortByKey_perm _).map _).trans ?_
      rw [sample_indices_map_fst]
  cases shuffle
  · simp only [bucket_schedule_once]
    rw [if_neg Bool.false_ne_true, if_neg Bool.false_ne_true, hsilen]
    constructor
    · rw [epoch_batches, List.length_map]
    · exact (epoch_flatten_perm _ _ _ samples.length hbs hsilen
        (List.Perm.refl _)).trans hsifst
  · simp only [bucket_schedule_once]
    rw [if_pos trivial, if_pos trivial, hsilen]
    have harrlen : (sortByKey shuffled).length = samples.length := by
      rw [(sortByKey_perm shuffled).length_eq, (hsh rfl).length_eq, hsilen]
    constructor
    · rw [epoch_batches, List.length_map, (hord rfl).length_eq]
    · exact (epoch_flatten_perm _ _ _ samples.length hbs harrlen
        (hord rfl)).trans
        ((((sortByKey_perm shuffled).trans (hsh rfl)).map Prod.fst).trans
          hsifst)

/-- Witness for C2 at a concrete input (2 samples, batch_size 1,
no shuffling). -/
theorem C2_coverage_witness :
    1 ≤ ([(['a','b'], ['c','d']), (['e','f','g'], ['h'])] : List Sample).length
    ∧ 1 ≤ 1
    ∧ ((false = true) → (([] : List (Nat × Nat)).Perm
        (if false then sortByKey (sample_indices
            [(['a','b'], ['c','d']), (['e','f','g'], ['h'])] 3)
         else sample_indices
            [(['a','b'], ['c','d']), (['e','f','g'], ['h'])] 3)))
    ∧ ((false = true) → (([] : List Nat).Perm
        (get_number_of_batches 1
          ([(['a','b'], ['c','d']), (['e','f','g'], ['h'])] : List Sample).length)))
    ∧ ((bucket_schedule_once [(['a','b'], ['c','d']), (['e','f','g'], ['h'])]
          1 false 3 false [] []).length
        = (get_number_of_batches 1
            ([(['a','b'], ['c','d']), (['e','f','g'], ['h'])] : List Sample).length).length
      ∧ (bucket_schedule_once [(['a','b'], ['c','d']), (['e','f','g'], ['h'])]
          1 false 3 false [] []).flatten.Perm
          (List.range ([(['a','b'], ['c','d']), (['e','f','g'], ['h'])] : List Sample).length)) :=
  ⟨by decide, by decide, by decide, by decide,
    C2_coverage [(['a','b'], ['c','d']), (['e','f','g'], ['h'])] 1 false 3
      false [] [] (by decide) (by decide) (by decide) (by decide)⟩

/-- The length of the slice taken for batch number `b`. -/
theorem epoch_slice_length (arr : List (Nat × Nat)) (bs n b : Nat)
    (harr : arr.length = n) :
    (((arr.drop (get_start_end_indices b bs n).1).take
        ((get_start_end_indices b bs n).2
          - (get_start_end_indices b bs n).1)).map Prod.fst).length
      = min (min (b * bs + bs) n - b * bs) (n - b * bs) := by
  simp only [get_start_end_indices, List.length_map, List.length_take,
    List.length_drop, harr, Nat.succ_mul]

/-- A batch number strictly before the last one denotes a full batch:
`(b+1)*bs` still fits under `n`. -/
theorem full_batch_fits (bs n b : Nat) (hbs : 1 ≤ bs) (hn : 1 ≤ n)
    (hb : b + 1 < (n + bs - 1) / bs) : b * bs + bs < n := by
  have hnb : (n + bs - 1) / bs = (n - 1) / bs + 1 := by
    rw [show n + bs - 1 = (n - 1) + bs by omega,
      Nat.add_div_right _ (by omega)]
  rw [hnb] at hb
  have h1 : b + 1 ≤ (n - 1) / bs := by omega
  have h2 : (b + 1) * bs ≤ (n - 1) / bs * bs := Nat.mul_le_mul_right bs h1
  have h3 : (n - 1) / bs * bs ≤ n - 1 := Nat.div_mul_le_self _ _
  rw [Nat.succ_mul] at h2
  omega

/-- A list all of whose elements equal a constant and which has no
duplicates has at most one element. -/
theorem length_le_one_of_nodup_const {α : Type} {l : List α} {c : α}
    (hnd : l.Nodup) (h : ∀ x ∈ l, x = c) : l.length ≤ 1 := by
  cases l with
  | nil => simp
  | cons a t =>
    cases t with
    | nil => simp
    | cons b u =>
      exfalso
      have ha : a = c := h a (List.mem_cons_self _ _)
      have hb : b = c := h b (List.mem_cons_of_mem _ (List.mem_cons_self _ _))
      have hne : a ∉ b :: u := (List.nodup_cons.1 hnd).1
      exact hne (ha.trans hb.symm ▸ List.mem_cons_self _ _)

/-- `countP` of a predicate that pins its satisfiers to a single value
is at most 1 on a duplicate-free list. -/
theorem countP_le_one_of_unique {l : List Nat} (hnd : l.Nodup)
    (p : Nat → Bool) (c : Nat) (h : ∀ x ∈ l, p x = true → x = c) :
    l.countP p ≤ 1 := by
  rw [List.countP_eq_length_filter]
  refine length_le_one_of_nodup_const (c := c) (hnd.filter p) ?_
  intro x hx
  have hx' := List.mem_filter.1 hx
  exact h x hx'.1 hx'.2

/-- Size bound and short-batch count for one epoch over any visiting
order of the batch numbers. -/
theorem epoch_batches_bounds (arr : List (Nat × Nat)) (bn : List Nat)
    (bs n : Nat) (hbs : 1 ≤ bs) (hn : 1 ≤ n) (harr : arr.length = n)
    (hord : bn.Perm (get_number_of_batches bs n)) :
    (∀ l ∈ epoch_batches arr bn bs n, l.length ≤ bs)
    ∧ (epoch_batches arr bn bs n).countP
        (fun l => decide (l.length < bs)) ≤ 1 := by
  constructor
  · intro l hl
    rw [epoch_batches] at hl
    obtain ⟨b, _, rfl⟩ := List.mem_map.1 hl
    rw [epoch_slice_length arr bs n b harr]
    omega
  · rw [epoch_batches, List.countP_map]
    rw [hord.countP_eq]
    refine countP_le_one_of_unique (List.nodup_range _) _
      ((n + bs - 1) / bs - 1) ?_
    intro b hb hp
    simp only [get_number_of_batches, List.mem_range] at hb
    simp only [Function.comp_apply, decide_eq_true_eq] at hp
    rw [epoch_slice_length arr bs n b harr] at hp
    by_contra hne
    have hb1 : b + 1 < (n + bs - 1) / bs := by omega
    have := full_batch_fits bs n b hbs hn hb1
    omega

/-- Without shuffling the batch numbers are visited in order, and a
short batch can only sit at the last position of the epoch. -/
theorem epoch_batches_short_last (arr : List (Nat × Nat)) (bs n : Nat)
    (hbs : 1 ≤ bs) (hn : 1 ≤ n) (harr : arr.length = n) :
    ∀ i (h : i < (epoch_batches arr (get_number_of_batches bs n)
        bs n).length),
      ((epoch_batches arr (get_number_of_batches bs n) bs n).get
          ⟨i, h⟩).length < bs →
      i = (epoch_batches arr (get_number_of_batches bs n) bs n).length
        - 1 := by
  intro i h hshort
  have hlen : (epoch_batches arr (get_number_of_batches bs n) bs n).length
      = (n + bs - 1) / bs := by
    simp only [epoch_batches, List.length_map, get_number_of_batches,
      List.length_range]
  have hi : i < (n + bs - 1) / bs := hlen ▸ h
  rw [List.get_eq_getElem] at hshort
  simp only [epoch_batches, get_number_of_batches] at hshort
  rw [List.getElem_map, List.getElem_range] at hshort
  rw [epoch_slice_length arr bs n i harr] at hshort
  rw [hlen]
  by_contra hne
  have hb1 : i + 1 < (n + bs - 1) / bs := by omega
  have := full_batch_fits bs n i hbs hn hb1
  omega

/-- C3 fails as stated: when `shuffle=True`, `bucket_schedule` visits
the (contiguous) batch slices in an order drawn by
`np.random.permutation`, so the remainder batch need not come last.
With 3 samples, `batch_size=2` and the drawn visiting order `[1, 0]`
(a legal permutation of the batch numbers `[0, 1]`), the epoch yields
the short batch first. -/
theorem C3_counterexample :
    (sample_indices [(['a','b'], ['c','d']), (['e','f'], ['g','h']),
        (['i','j'], ['k','l'])] 3).Perm
      (sample_indices [(['a','b'], ['c','d']), (['e','f'], ['g','h']),
        (['i','j'], ['k','l'])] 3)
    ∧ ([1, 0] : List Nat).Perm (get_number_of_batches 2 3)
    ∧ ¬ (∀ i : Fin (bucket_schedule_once
          [(['a','b'], ['c','d']), (['e','f'], ['g','h']),
            (['i','j'], ['k','l'])] 2 true 3 false
          (sample_indices [(['a','b'], ['c','d']), (['e','f'], ['g','h']),
            (['i','j'], ['k','l'])] 3) [1, 0]).length,
        ((bucket_schedule_once
            [(['a','b'], ['c','d']), (['e','f'], ['g','h']),
              (['i','j'], ['k','l'])] 2 true 3 false
            (sample_indices [(['a','b'], ['c','d']), (['e','f'], ['g','h']),
              (['i','j'], ['k','l'])] 3) [1, 0]).get i).length < 2 →
        (i : Nat) = (bucket_schedule_once
            [(['a','b'], ['c','d']), (['e','f'], ['g','h']),
              (['i','j'], ['k','l'])] 2 true 3 false
            (sample_indices [(['a','b'], ['c','d']), (['e','f'], ['g','h']),
              (['i','j'], ['k','l'])] 3) [1, 0]).length - 1) := by
  decide

/-- C3 (amended): every yielded index batch has length ≤ batch_size and
at most one batch per epoch is shorter (the remainder); when
`shuffle=False` the short batch, if present, is the last one yielded.
When `shuffle=True` the batch visiting order is permuted, so the short
batch can appear at any position (see the counterexample). -/
theorem C3_batch_size_bound (samples : List Sample) (batch_size : Nat)
    (shuffle : Bool) (fuzzyness : Nat) (sort : Bool)
    (shuffled : List (Nat × Nat)) (order : List Nat)
    (hn : 1 ≤ samples.length) (hbs : 1 ≤ batch_size)
    (hsh : shuffle = true → shuffled.Perm
      (if sort then sortByKey (sample_indices samples fuzzyness)
       else sample_indices samples fuzzyness))
    (hord : shuffle = true → order.Perm
      (get_number_of_batches batch_size samples.length)) :
    (∀ l ∈ bucket_schedule_once samples batch_size shuffle fuzzyness sort
        shuffled order, l.length ≤ batch_size)
    ∧ (bucket_schedule_once samples batch_size shuffle fuzzyness sort
        shuffled order).countP
        (fun l => decide (l.length < batch_size)) ≤ 1
    ∧ (shuffle = false →
        ∀ i (h : i < (bucket_schedule_once samples batch_size shuffle
            fuzzyness sort shuffled order).length),
          ((bucket_schedule_once samples batch_size shuffle fuzzyness sort
              shuffled order).get ⟨i, h⟩).length < batch_size →
          i = (bucket_schedule_once samples batch_size shuffle fuzzyness
              sort shuffled order).length - 1) := by
  have hsilen : (if sort then sortByKey (sample_indices samples fuzzyness)
      else sample_indices samples fuzzyness).length = samples.length := by
    cases sort
    · rw [if_neg Bool.false_ne_true, sample_indices_length]
    · rw [if_pos rfl, sortByKey, List.length_insertionSort,
        sample_indices_length]
  cases shuffle
  · simp only [bucket_schedule_once]
    rw [if_neg Bool.false_ne_true, if_neg Bool.false_ne_true, hsilen]
    have hb := epoch_batches_bounds _ _ _ _ hbs hn hsilen (List.Perm.refl _)
    refine ⟨hb.1, hb.2, fun _ => ?_⟩
    exact epoch_batches_short_last _ _ _ hbs hn hsilen
  · have harrlen : (sortByKey shuffled).length = samples.length := by
      rw [(sortByKey_perm shuffled).length_eq, (hsh rfl).length_eq, hsilen]
    refine ⟨?_, ?_, fun h => nomatch h⟩
    · simp only [bucket_schedule_once]
      rw [if_pos trivial, if_pos trivial, hsilen]
      exact (epoch_batches_bounds _ _ _ _ hbs hn harrlen (hord rfl)).1
    · simp only [bucket_schedule_once]
      rw [if_pos trivial, if_pos trivial, hsilen]
      exact (epoch_batches_bounds _ _ _ _ hbs hn harrlen (hord rfl)).2

/-- Witness for C3 (amended) at a concrete input (3 samples,
batch_size 2, no shuffling: the short batch is the final one). -/
theorem C3_batch_size_bound_witness :
    1 ≤ ([(['a','b'], ['c','d']), (['e','f'], ['g','h']),
        (['i','j'], ['k','l'])] : List Sample).length
    ∧ 1 ≤ 2
    ∧ ((false = true) → (([] : List (Nat × Nat)).Perm
        (if false then sortByKey (sample_indices
            [(['a','b'], ['c','d']), (['e','f'], ['g','h']),
              (['i','j'], ['k','l'])] 3)
         else sample_indices
            [(['a','b'], ['c','d']), (['e','f'], ['g','h']),
              (['i','j'], ['k','l'])] 3)))
    ∧ ((false = true) → (([] : List Nat).Perm
        (get_number_of_batches 2
          ([(['a','b'], ['c','d']), (['e','f'], ['g','h']),
            (['i','j'], ['k','l'])] : List Sample).length)))
    ∧ ((∀ l ∈ bucket_schedule_once
          [(['a','b'], ['c','d']), (['e','f'], ['g','h']),
            (['i','j'], ['k','l'])] 2 false 3 false [] [],
          l.length ≤ 2)
      ∧ (bucket_schedule_once
          [(['a','b'], ['c','d']), (['e','f'], ['g','h']),
            (['i','j'], ['k','l'])] 2 false 3 false [] []).countP
          (fun l => decide (l.length < 2)) ≤ 1
      ∧ ((false = false) →
          ∀ i (h : i < (bucket_schedule_once
              [(['a','b'], ['c','d']), (['e','f'], ['g','h']),
                (['i','j'], ['k','l'])] 2 false 3 false [] []).length),
            ((bucket_schedule_once
                [(['a','b'], ['c','d']), (['e','f'], ['g','h']),
                  (['i','j'], ['k','l'])] 2 false 3 false [] []).get
                ⟨i, h⟩).length < 2 →
            i = (bucket_schedule_once
                [(['a','b'], ['c','d']), (['e','f'], ['g','h']),
                  (['i','j'], ['k','l'])] 2 false 3 false [] []).length
              - 1)) :=
  ⟨by decide, by decide, by decide, by decide,
    C3_batch_size_bound
      [(['a','b'], ['c','d']), (['e','f'], ['g','h']), (['i','j'], ['k','l'])]
      2 false 3 false [] [] (by decide) (by decide) (by decide) (by decide)⟩

/-- C5: `warmup_schedule` first drives the warmup function with the
fixed settings `shuffle=False, repeat=False, fuzzyness=1, sort=True`,
yielding at most `warmup_iterations` batches from it (fewer if it
exhausts first — the `take`), then yields every batch of the regular
generator.  With `warmup_iterations=2`, a 10-sample loader and
`batch_size=5` the warmup epoch has exactly 2 batches, so the warmup
phase yields exactly those 2 batches and then hands over to the
regular phase unchanged. -/
theorem C5_warmup (samples : List Sample) (regular : List (List Nat))
    (h10 : samples.length = 10) :
    (∀ (bs wi : Nat) (reg : List (List Nat)),
      warmup_schedule samples bs wi reg
        = (bucket_schedule_once samples bs false 1 true [] []).take wi
          ++ reg)
    ∧ (bucket_schedule_once samples 5 false 1 true [] []).length = 2
    ∧ (warmup_schedule samples 5 2 regular).take 2
        = bucket_schedule_once samples 5 false 1 true [] []
    ∧ (warmup_schedule samples 5 2 regular).drop 2 = regular := by
  have hsl : (sortByKey (sample_indices samples 1)).length = 10 := by
    rw [(sortByKey_perm _).length_eq, sample_indices_length, h10]
  have h2 : (bucket_schedule_once samples 5 false 1 true [] []).length
      = 2 := by
    simp only [bucket_schedule_once, epoch_batches, Bool.false_eq_true,
      if_false, eq_self_iff_true, if_true, List.length_map,
      get_number_of_batches, List.length_range, hsl]
  have hW : (bucket_schedule_once samples 5 false 1 true [] []).take 2
      = bucket_schedule_once samples 5 false 1 true [] [] :=
    List.take_of_length_le (le_of_eq h2)
  refine ⟨fun bs wi reg => rfl, h2, ?_, ?_⟩
  · rw [warmup_schedule, hW,
      List.take_append_of_le_length (le_of_eq h2.symm), hW]
  · rw [warmup_schedule, hW, ← h2, List.drop_left]

/-- Witness for C5 at a concrete input: a loader with 10 samples. -/
theorem C5_warmup_witness :
    (List.replicate 10 ((['a','b'], ['c','d']) : Sample)).length = 10
    ∧ ((∀ (bs wi : Nat) (reg : List (List Nat)),
        warmup_schedule (List.replicate 10 ((['a','b'], ['c','d']) : Sample))
            bs wi reg
          = (bucket_schedule_once
              (List.replicate 10 ((['a','b'], ['c','d']) : Sample))
              bs false 1 true [] []).take wi ++ reg)
      ∧ (bucket_schedule_once
          (List.replicate 10 ((['a','b'], ['c','d']) : Sample))
          5 false 1 true [] []).length = 2
      ∧ (warmup_schedule (List.replicate 10 ((['a','b'], ['c','d']) : Sample))
          5 2 [[99]]).take 2
          = bucket_schedule_once
              (List.replicate 10 ((['a','b'], ['c','d']) : Sample))
              5 false 1 true [] []
      ∧ (warmup_schedule (List.replicate 10 ((['a','b'], ['c','d']) : Sample))
          5 2 [[99]]).drop 2 = [[99]]) :=
  ⟨by decide,
    C5_warmup (List.replicate 10 ((['a','b'], ['c','d']) : Sample)) [[99]]
      (by decide)⟩
